import Mathlib

/-!
# webhooks-discord: the ingest handler of `src/index.js`

A shallow embedding of the Express handler `app.post('/')` and of its helpers
`formatTitle`, `formatSubtitle`, `notifyDiscord` and `getLocation`.

The payload is the value `JSON.parse(req.body.payload)` returns, so it is modelled
as a JavaScript value built from JSON: property reads on `undefined` and `null`
throw a `TypeError`, conditions test truthiness, `===` is strict equality and
`+` and template literals convert operands to strings the way JavaScript does,
which throws a `TypeError` on an object that shadows `toString`.
-/

namespace WebhooksDiscord

/-! ## JavaScript values -/

/-- A JavaScript value as `JSON.parse` builds it, together with `undefined` (what a
read of a missing property gives). A number is given by its text, the result of
ECMAScript `Number::toString`: `num "2016"`, `num "0.5"`, `num "1e+21"`, and
`num "NaN"` for the `NaN` a sum can give; negative zero has the text `0`. A text
that is no such result stands for no value. -/
inductive JSVal where
  | undefined
  | null
  | bool (b : Bool)
  | num (text : String)
  | str (s : String)
  | arr (xs : List JSVal)
  | obj (kvs : List (String × JSVal))

/-- An exception a JavaScript operation throws, or the reason a promise rejects with. -/
inductive JSError where
  | typeError
  | sharpError
  | lookupError
  deriving DecidableEq, Repr

namespace JSVal

/-- The truthiness test of `if (x)`, `!x`, `x && y`: ECMAScript `ToBoolean`. The
falsy numbers are the zeros and `NaN`. -/
def truthy : JSVal → Bool
  | undefined => false
  | null => false
  | bool b => b
  | num text => text != "0" && text != "NaN"
  | str s => s != ""
  | arr _ => true
  | obj _ => true

/-- Strict equality with a string literal, `x === 'lit'`. -/
def strictEqStr : JSVal → String → Bool
  | str s, lit => s == lit
  | _, _ => false

/-- The own property `name` of an object literal, `undefined` when there is none. -/
def lookup (name : String) : List (String × JSVal) → JSVal
  | [] => undefined
  | (k, v) :: rest => if k = name then v else lookup name rest

/-- Whether an object literal has an own property of this name. -/
def hasKey (name : String) (kvs : List (String × JSVal)) : Bool :=
  kvs.any fun kv => kv.1 == name

/-- The property read `x.name`. Reading from `undefined` or `null` throws a `TypeError`.
Every other value is read without a fault: an object gives its own property, and a
boolean, number, string or array gives `undefined`, since none of the names this
program reads is a member of a built-in prototype. -/
def get (x : JSVal) (name : String) : Except JSError JSVal :=
  match x with
  | undefined => .error .typeError
  | null => .error .typeError
  | obj kvs => .ok (lookup name kvs)
  | _ => .ok undefined

mutual
/-- ECMAScript `ToString`, as a template literal and string concatenation apply it.
An array is rendered by `Array.prototype.join`. An object is rendered by
`Object.prototype.toString`, unless an own property `toString` shadows it: a value
from JSON is never callable, `Object.prototype.valueOf` returns no primitive, and the
conversion throws a `TypeError`. -/
def toStr : JSVal → Except JSError String
  | undefined => .ok "undefined"
  | null => .ok "null"
  | bool b => .ok (if b then "true" else "false")
  | num text => .ok text
  | str s => .ok s
  | arr xs =>
    match elemStrs xs with
    | .ok texts => .ok (",".intercalate texts)
    | .error e => .error e
  | obj kvs => if hasKey "toString" kvs then .error .typeError else .ok "[object Object]"
termination_by structural x => x
/-- The element texts `Array.prototype.join` separates by commas: `undefined` and
`null` elements are empty. -/
def elemStrs : List JSVal → Except JSError (List String)
  | [] => .ok []
  | x :: rest =>
    match toStr x, elemStrs rest with
    | .ok text, .ok texts =>
      .ok ((match x with
        | undefined => ""
        | null => ""
        | _ => text) :: texts)
    | .error e, _ => .error e
    | _, .error e => .error e
termination_by structural x => x
end

/-- ECMAScript `ToPrimitive`: an array or an object becomes its text, every other value
is primitive already. -/
def toPrimitive : JSVal → Except JSError JSVal
  | arr xs => (toStr (arr xs)).map str
  | obj kvs => (toStr (obj kvs)).map str
  | x => .ok x

/-- Whether the value is a string. -/
def isStr : JSVal → Bool
  | str _ => true
  | _ => false

/-- The string branch of `+`, taken when an operand is a string: the two texts, joined. -/
def concat (a b : JSVal) : Except JSError JSVal := do
  let s ← a.toStr
  let t ← b.toStr
  return str (s ++ t)

/-- The binary `+`: both operands are made primitive; the texts are joined as soon as
one primitive is a string, and the numbers are added otherwise. `plus` is that
addition of two primitives that are no strings (`ToNumber` of each, then the sum of
the two doubles). -/
def add (plus : JSVal → JSVal → JSVal) (a b : JSVal) : Except JSError JSVal := do
  let pa ← a.toPrimitive
  let pb ← b.toPrimitive
  if pa.isStr || pb.isStr then pa.concat pb else return plus pa pb

end JSVal

open JSVal

/-! ## Collaborators and the cache store -/

/-- The bytes of a Node `Buffer`. -/
abbrev Buffer := List Nat

/-- Source: `const SEVEN_DAYS = 7 * 24 * 60 * 60; // in seconds`. -/
def SEVEN_DAYS : Nat := 7 * 24 * 60 * 60

/-- One entry of the Redis store: the stored bytes and the expiry given with `EX`. -/
structure Entry where
  value : Buffer
  seconds : Nat
  deriving DecidableEq, Repr

/-- The Redis store `redis`, as the map from keys to live entries. -/
abbrev Store := String → Option Entry

/-- The store with no entry. -/
def Store.empty : Store := fun _ => none

/-- Models `redis.getBuffer(key)`: the stored bytes, `null` (here `none`) without an entry. -/
def Store.getBuffer (redis : Store) (key : String) : Option Buffer :=
  (redis key).map Entry.value

/-- Models `redis.set(key, value, 'EX', seconds)`: the entry under `key` is replaced. -/
def Store.set (redis : Store) (key : String) (value : Buffer) (seconds : Nat) : Store :=
  fun k => if k = key then some ⟨value, seconds⟩ else redis k

/-- The environment of the process: the libraries the handler calls and `APP_URL`.
`sha1` is the digest of the `sha1` package, `sharp` the whole chain
`sharp(buffer).resize(75, 75).background('white').embed().toBuffer()` (`none` when
its promise rejects), `freegeoip` the callback result of `freegeoip.getLocation`
(`none` when it reports `err`), `appURL` the value of `process.env.APP_URL` (a string,
or `undefined`, here `none`) and `plus` the addition of numbers of the language. -/
structure World where
  sha1 : JSVal → String
  sharp : Buffer → Option Buffer
  freegeoip : JSVal → Option JSVal
  appURL : Option String
  plus : JSVal → JSVal → JSVal

/-- What the handler does to the outside, in order. -/
inductive Event where
  | redisGetBuffer (key : String)
  | redisSet (key : String) (value : Buffer) (seconds : Nat)
  | getLocation (ip : JSVal)
  | notifyDiscord (imageUrl location : JSVal) (action colour : String)
  | sendSlackMessage (username text : String)

namespace Event

/-- A read or a write of the cache store. -/
def isStore : Event → Bool
  | redisGetBuffer _ => true
  | redisSet _ _ _ => true
  | _ => false

/-- A call of the external location lookup. -/
def isLookup : Event → Bool
  | getLocation _ => true
  | _ => false

/-- A notification dispatch: the call of `notifyDiscord` or the message it sends. -/
def isNotify : Event → Bool
  | notifyDiscord _ _ _ _ => true
  | sendSlackMessage _ _ => true
  | _ => false

end Event

/-! ## Helpers of `src/index.js` -/

/-- Source `function getLocation(ip)`: the promise resolves with the location and rejects
with the error of the lookup. -/
def getLocation (w : World) (ip : JSVal) : Except JSError JSVal :=
  match w.freegeoip ip with
  | none => .error .lookupError
  | some location => .ok location

/-- Source `function formatTitle(metadata)`. The right operand of `ret += ...` is a
string, so the `+` is a concatenation. -/
def formatTitle (metadata : JSVal) : Except JSError JSVal := do
  let grandparentTitle ← metadata.get "grandparentTitle"
  if grandparentTitle.truthy then
    return grandparentTitle
  else
    let ret ← metadata.get "title"
    let year ← metadata.get "year"
    if year.truthy then
      let yearText ← year.toStr
      ret.concat (str (" (" ++ yearText ++ ")"))
    else
      return ret

/-- The assignment to `ret` of lines 164 to 170 of `formatSubtitle`; `ret` starts as
the empty string. -/
def subtitleBase (type parentTitle index parentIndex originallyAvailableAt : JSVal) :
    Except JSError JSVal :=
  if type.strictEqStr "track" then
    return parentTitle
  else if index.truthy && parentIndex.truthy then do
    let parentIndexText ← parentIndex.toStr
    let indexText ← index.toStr
    return str ("S" ++ parentIndexText ++ " E" ++ indexText)
  else if originallyAvailableAt.truthy then
    return originallyAvailableAt
  else
    return str ""

/-- Source `function formatSubtitle(metadata)`. Both `+` of line 173 have a string
operand and are concatenations. -/
def formatSubtitle (metadata : JSVal) : Except JSError JSVal := do
  let grandparentTitle ← metadata.get "grandparentTitle"
  if grandparentTitle.truthy then
    let type ← metadata.get "type"
    let parentTitle ← metadata.get "parentTitle"
    let index ← metadata.get "index"
    let parentIndex ← metadata.get "parentIndex"
    let originallyAvailableAt ← metadata.get "originallyAvailableAt"
    let ret ← subtitleBase type parentTitle index parentIndex originallyAvailableAt
    let title ← metadata.get "title"
    if title.truthy then
      let suffix ← (str " - ").concat title
      ret.concat suffix
    else
      return ret
  else
    let type ← metadata.get "type"
    if type.strictEqStr "movie" then
      metadata.get "tagline"
    else
      return str ""

/-- The local `locationText` of `notifyDiscord`. -/
def locationText (location : JSVal) : Except JSError String := do
  if location.truthy then
    let country_code ← location.get "country_code"
    let state ← if country_code.strictEqStr "US" then location.get "region_name"
      else location.get "country_name"
    let city ← location.get "city"
    let cityText ← city.toStr
    let stateText ← state.toStr
    return "near " ++ cityText ++ ", " ++ stateText
  else
    return ""

/-- The object handed to `hook.sendSlackMessage`. -/
structure SlackMessage where
  username : String
  text : String
  deriving DecidableEq, Repr

/-- Source `function notifyDiscord(imageUrl, payload, location, action, colour)`: the message
it hands to `hook.sendSlackMessage`, or the exception thrown before the send. The
attachment that would carry `colour`, the subtitle and the thumbnail is commented
out in the source, and `locationText` is computed and not used. -/
def notifyDiscord (_imageUrl payload location : JSVal) (action _colour : String) :
    Except JSError SlackMessage := do
  let _ ← locationText location
  let account ← payload.get "Account"
  let accountTitle ← account.get "title"
  let accountText ← accountTitle.toStr
  let metadata ← payload.get "Metadata"
  let title ← formatTitle metadata
  let titleText ← title.toStr
  let server ← payload.get "Server"
  let serverTitle ← server.get "title"
  let serverText ← serverTitle.toStr
  return { username := "Plex",
           text := accountText ++ " " ++ action ++ " " ++ titleText ++ " on " ++ serverText }

/-! ## The ingest handler `app.post('/')` -/

/-- The constants the handler computes before its validation (lines 40 to 42). -/
structure Classified where
  isVideo : Bool
  isAudio : Bool
  key : String

/-- Lines 40 to 42: `isVideo`, `isAudio` and `key`, or the `TypeError` of a read from a
missing object or of the `+` of line 42. -/
def classify (w : World) (payload : JSVal) : Except JSError Classified := do
  let metadata ← payload.get "Metadata"
  let librarySectionType ← metadata.get "librarySectionType"
  let isVideo := librarySectionType.strictEqStr "movie" || librarySectionType.strictEqStr "show"
  let isAudio := librarySectionType.strictEqStr "artist"
  let server ← payload.get "Server"
  let uuid ← server.get "uuid"
  let ratingKey ← metadata.get "ratingKey"
  let input ← uuid.add w.plus ratingKey
  return { isVideo := isVideo, isAudio := isAudio, key := w.sha1 input }

/-- The condition of line 45:
`!payload.user || !payload.Metadata || !(isAudio || isVideo)`. -/
def rejects (payload : JSVal) (c : Classified) : Except JSError Bool := do
  let user ← payload.get "user"
  let metadata ← payload.get "Metadata"
  return !user.truthy || !metadata.truthy || !(c.isAudio || c.isVideo)

/-- The condition of line 55: the event is one of the four cacheable phases. -/
def isCacheable (event : JSVal) : Bool :=
  event.strictEqStr "media.play" || event.strictEqStr "media.stop" ||
    event.strictEqStr "media.pause" || event.strictEqStr "media.resume"

/-- Lines 80 to 94: the action and the colour of the event, `none` where the handler
returns. -/
def phaseMapping (event : JSVal) : Option (String × String) :=
  if event.strictEqStr "media.play" then some ("started watching", "#36a64f")
  else if event.strictEqStr "media.stop" then some ("stopped watching", "danger")
  else if event.strictEqStr "media.resume" then some ("resumed playback of", "#36a64f")
  else if event.strictEqStr "media.pause" then some ("paused playback of", "#a67a2d")
  else none

/-- How a run of the handler ends: the status `res.sendStatus` sent (`none` when the
handler sent no response), the exception its promise rejected with, the store it
leaves and what it did to the outside. -/
structure Outcome where
  status : Option Nat
  thrown : Option JSError
  redis : Store
  trace : List Event

/-- Lines 51 to 68: the read of the cached image and the save of a new one. The
result is the local `image`, the store and the events. -/
def cacheStep (w : World) (redis : Store) (key : String) (event : JSVal)
    (file : Option Buffer) : Except JSError (Option Buffer) × Store × List Event :=
  let image := redis.getBuffer key
  if isCacheable event then
    match image with
    | some cached => (.ok (some cached), redis, [.redisGetBuffer key])
    | none =>
      match file with
      | some buffer =>
        match w.sharp buffer with
        | some resized =>
          (.ok (some resized), redis.set key resized SEVEN_DAYS,
            [.redisGetBuffer key, .redisSet key resized SEVEN_DAYS])
        | none => (.error .sharpError, redis, [.redisGetBuffer key])
      | none => (.ok none, redis, [.redisGetBuffer key])
  else (.ok image, redis, [.redisGetBuffer key])

/-- The first argument of `notifyDiscord` (lines 96 to 102):
`appURL + '/images/' + key` with a cached or new image, `null` without. An unset
`APP_URL` reads `undefined`. -/
def imageUrlFor (w : World) (key : String) (image : Option Buffer) : JSVal :=
  if image.isSome then str (w.appURL.getD "undefined" ++ "/images/" ++ key) else null

/-- Lines 74 to 104, run for a video item: the lookup, the phase mapping, the
dispatch and the response. -/
def notifyStep (w : World) (redis : Store) (payload event : JSVal) (key : String)
    (image : Option Buffer) (trace : List Event) : Outcome :=
  match payload.get "Player" >>= fun player => player.get "publicAddress" with
  | .error e => { status := none, thrown := some e, redis := redis, trace := trace }
  | .ok ip =>
    match getLocation w ip with
    | .error e =>
      { status := none, thrown := some e, redis := redis, trace := trace ++ [.getLocation ip] }
    | .ok location =>
      match phaseMapping event with
      | none =>
        { status := none, thrown := none, redis := redis, trace := trace ++ [.getLocation ip] }
      | some (action, colour) =>
        match notifyDiscord (imageUrlFor w key image) payload location action colour with
        | .error e =>
          { status := none, thrown := some e, redis := redis,
            trace := trace ++ [.getLocation ip,
              .notifyDiscord (imageUrlFor w key image) location action colour] }
        | .ok message =>
          { status := some 200, thrown := none, redis := redis,
            trace := trace ++ [.getLocation ip,
              .notifyDiscord (imageUrlFor w key image) location action colour,
              .sendSlackMessage message.username message.text] }

/-- The handler of `app.post('/', upload.single('thumb'), ...)`, run on the store
`redis` with `payload = JSON.parse(req.body.payload)` and `file` the buffer of
`req.file`, `none` when no image was uploaded. -/
def postHandler (w : World) (redis : Store) (payload : JSVal) (file : Option Buffer) :
    Outcome :=
  match classify w payload with
  | .error e => { status := none, thrown := some e, redis := redis, trace := [] }
  | .ok c =>
    match rejects payload c with
    | .error e => { status := none, thrown := some e, redis := redis, trace := [] }
    | .ok true => { status := some 400, thrown := none, redis := redis, trace := [] }
    | .ok false =>
      match payload.get "event" with
      | .error e => { status := none, thrown := some e, redis := redis, trace := [] }
      | .ok event =>
        match cacheStep w redis c.key event file with
        | (.error e, redis1, trace1) =>
          { status := none, thrown := some e, redis := redis1, trace := trace1 }
        | (.ok image, redis1, trace1) =>
          if !c.isVideo then
            { status := none, thrown := none, redis := redis1, trace := trace1 }
          else
            notifyStep w redis1 payload event c.key image trace1

/-! ## Vocabulary of the statements -/

/-- The field `x.name` as a statement names it: `undefined` on everything that is not
an object with that property. -/
def JSVal.field (x : JSVal) (name : String) : JSVal :=
  match x with
  | obj kvs => lookup name kvs
  | _ => undefined

/-- A value that is there to read from: neither `undefined` nor `null`. -/
def JSVal.present : JSVal → Bool
  | undefined => false
  | null => false
  | _ => true

/-- The value of `Metadata.librarySectionType` of a payload. -/
def sectionType (payload : JSVal) : JSVal :=
  (payload.field "Metadata").field "librarySectionType"

/-- The item is video-eligible: its section type is `movie` or `show`. -/
def isVideoType (payload : JSVal) : Bool :=
  (sectionType payload).strictEqStr "movie" || (sectionType payload).strictEqStr "show"

/-- The item is audio-type: its section type is `artist`. -/
def isAudioType (payload : JSVal) : Bool :=
  (sectionType payload).strictEqStr "artist"

/-- The cache key of a payload, `sha1(payload.Server.uuid + payload.Metadata.ratingKey)`,
or the `TypeError` of the `+`. -/
def derivedKey (w : World) (payload : JSVal) : Except JSError String :=
  (((payload.field "Server").field "uuid").add w.plus
    ((payload.field "Metadata").field "ratingKey")).map w.sha1

/-- The payload satisfies the validation of line 45 (and `Server` can be read): `user`
is truthy and the section type is `movie`, `show` or `artist`. -/
def PassesGate (payload : JSVal) : Prop :=
  (payload.field "Server").present = true ∧ (payload.field "user").truthy = true ∧
    (isVideoType payload || isAudioType payload) = true

/-- The text of a value that converts to a string, and the empty text of one that
does not. -/
def JSVal.text (v : JSVal) : String :=
  match v.toStr with
  | .ok s => s
  | .error _ => ""

/-- The value converts to a string: it is no object with an own property `toString`
and no array that holds one. -/
def JSVal.converts (v : JSVal) : Bool :=
  match v.toStr with
  | .ok _ => true
  | .error _ => false

/-- The subtitle as the specification words it, with presence read as the truthiness
the code tests: under a truthy `grandparentTitle` a base (the parent title of a
`track`, else `S{parentIndex} E{index}` when both are truthy, else a truthy
`originallyAvailableAt`, else empty) followed by ` - {title}` under a truthy `title`;
without it the `tagline` of a `movie`; else empty. A missing parent title or tagline
counts as empty. -/
def subtitleSpec (metadata : JSVal) : JSVal :=
  if (metadata.field "grandparentTitle").truthy then
    let base :=
      if (metadata.field "type").strictEqStr "track" then
        (if (metadata.field "parentTitle").present then metadata.field "parentTitle" else str "")
      else if (metadata.field "index").truthy && (metadata.field "parentIndex").truthy then
        str ("S" ++ (metadata.field "parentIndex").text ++ " E" ++
          (metadata.field "index").text)
      else if (metadata.field "originallyAvailableAt").truthy then
        metadata.field "originallyAvailableAt"
      else str ""
    if (metadata.field "title").truthy then
      str (base.text ++ " - " ++ (metadata.field "title").text)
    else base
  else if (metadata.field "type").strictEqStr "movie" then
    (if (metadata.field "tagline").present then metadata.field "tagline" else str "")
  else str ""

/-! ## Sample inputs -/

/-- A world for the worked examples: the digest is written out as text, the image
library rejects the empty upload and marks every other one, the lookup knows one
address and no example adds numbers. -/
def sampleWorld : World where
  sha1 := fun v => "sha1:" ++ v.text
  sharp := fun buffer => if buffer = [] then none else some (75 :: 75 :: buffer)
  freegeoip := fun ip =>
    if ip.strictEqStr "203.0.113.7" then
      some (obj [("city", str "Lyon"), ("country_code", str "FR"), ("country_name", str "France")])
    else none
  appURL := some "http://app"
  plus := fun _ _ => num "NaN"

/-- A payload of the given event and section type, with every field the handler reads. -/
def samplePayload (event sectionType address : String) : JSVal :=
  obj [("event", str event), ("user", bool true),
    ("Account", obj [("title", str "ann")]),
    ("Server", obj [("uuid", str "srv"), ("title", str "Home")]),
    ("Player", obj [("publicAddress", str address)]),
    ("Metadata", obj [("librarySectionType", str sectionType), ("ratingKey", str "42"),
      ("title", str "Arrival"), ("year", num "2016")])]

/-- A payload whose `Server.uuid` is the object `{toString: 1}`, which `+` cannot
convert: `{user: false, event: 'media.play', Server: {uuid: {toString: 1}},
Metadata: {librarySectionType: 'movie', ratingKey: '1'}}`. -/
def shadowedPayload : JSVal :=
  obj [("user", bool false), ("event", str "media.play"),
    ("Server", obj [("uuid", obj [("toString", num "1")])]),
    ("Metadata", obj [("librarySectionType", str "movie"), ("ratingKey", str "1")])]

/-! ## Lemmas on the embedding -/

theorem field_present_isObj {x : JSVal} {name : String} (h : (x.field name).present = true) :
    ∃ kvs, x = obj kvs := by
  cases x <;> simp [JSVal.field, JSVal.present] at h ⊢

theorem get_of_present {x : JSVal} (name : String) (h : x.present = true) :
    x.get name = .ok (x.field name) := by
  cases x <;> simp [JSVal.get, JSVal.field, JSVal.present] at h ⊢

theorem get_obj (kvs : List (String × JSVal)) (name : String) :
    (obj kvs).get name = .ok (lookup name kvs) := rfl

theorem field_obj (kvs : List (String × JSVal)) (name : String) :
    (obj kvs).field name = lookup name kvs := rfl

theorem classify_of_present (w : World) (payload : JSVal)
    (hm : (payload.field "Metadata").present = true)
    (hs : (payload.field "Server").present = true) :
    classify w payload =
      (derivedKey w payload).map
        (fun key => Classified.mk (isVideoType payload) (isAudioType payload) key) := by
  obtain ⟨kvs, rfl⟩ := field_present_isObj hm
  have h1 := get_of_present "librarySectionType" hm
  have h2 := get_of_present "ratingKey" hm
  have h3 := get_of_present "uuid" hs
  rw [field_obj] at h1 h2 h3
  simp only [classify, get_obj, h1, h2, h3, bind, Except.bind, pure, Except.pure, isVideoType,
    isAudioType, derivedKey, sectionType, field_obj, Except.map]
  cases ((lookup "Server" kvs).field "uuid").add w.plus ((lookup "Metadata" kvs).field "ratingKey")
    <;> rfl

theorem strictEqStr_iff (v : JSVal) (s : String) : v.strictEqStr s = true ↔ v = str s := by
  cases v <;> simp [JSVal.strictEqStr]

theorem metadata_truthy_of_type (payload : JSVal)
    (h : (isVideoType payload || isAudioType payload) = true) :
    (payload.field "Metadata").truthy = true := by
  unfold isVideoType isAudioType sectionType at h
  generalize payload.field "Metadata" = m at h ⊢
  cases m <;> simp [JSVal.field, JSVal.strictEqStr, JSVal.truthy] at h ⊢

theorem present_of_truthy {v : JSVal} (h : v.truthy = true) : v.present = true := by
  cases v <;> simp [JSVal.truthy, JSVal.present] at h ⊢

theorem rejects_of_present (payload : JSVal) (c : Classified)
    (hm : (payload.field "Metadata").present = true) :
    rejects payload c = .ok (!(payload.field "user").truthy ||
      !(payload.field "Metadata").truthy || !(c.isAudio || c.isVideo)) := by
  obtain ⟨kvs, rfl⟩ := field_present_isObj hm
  simp only [rejects, get_obj, field_obj, bind, Except.bind, pure, Except.pure]

theorem notifyStep_status (w : World) (redis : Store) (payload event : JSVal) (key : String)
    (image : Option Buffer) (trace : List Event) :
    (notifyStep w redis payload event key image trace).status = none ∨
      (notifyStep w redis payload event key image trace).status = some 200 := by
  unfold notifyStep
  split <;> (try split) <;> (try split) <;> (try split) <;> simp

theorem notifyStep_redis (w : World) (redis : Store) (payload event : JSVal) (key : String)
    (image : Option Buffer) (trace : List Event) :
    (notifyStep w redis payload event key image trace).redis = redis := by
  unfold notifyStep
  split <;> (try split) <;> (try split) <;> (try split) <;> rfl

/-- The run of the handler when the `+` of line 42 throws: nothing is sent or done. -/
theorem postHandler_key_throws (w : World) (redis : Store) (payload : JSVal)
    (file : Option Buffer) (e : JSError)
    (hm : (payload.field "Metadata").present = true)
    (hs : (payload.field "Server").present = true)
    (hk : derivedKey w payload = .error e) :
    postHandler w redis payload file =
      { status := none, thrown := some e, redis := redis, trace := [] } := by
  unfold postHandler
  rw [classify_of_present w payload hm hs, hk]
  rfl

/-- The run of the handler on a payload whose `Metadata` and `Server` can be read,
whose key is computed and that the validation lets through. -/
theorem postHandler_of_pass (w : World) (redis : Store) (payload : JSVal) (file : Option Buffer)
    (key : String)
    (hm : (payload.field "Metadata").present = true)
    (hs : (payload.field "Server").present = true)
    (hk : derivedKey w payload = .ok key)
    (hu : (payload.field "user").truthy = true)
    (ht : (isVideoType payload || isAudioType payload) = true) :
    postHandler w redis payload file =
      match cacheStep w redis key (payload.field "event") file with
      | (.error e, redis1, trace1) =>
        { status := none, thrown := some e, redis := redis1, trace := trace1 }
      | (.ok image, redis1, trace1) =>
        if !isVideoType payload then
          { status := none, thrown := none, redis := redis1, trace := trace1 }
        else
          notifyStep w redis1 payload (payload.field "event") key image trace1 := by
  have hmt := metadata_truthy_of_type payload ht
  have hr := rejects_of_present payload
    (Classified.mk (isVideoType payload) (isAudioType payload) key) hm
  have hr2 : rejects payload
      (Classified.mk (isVideoType payload) (isAudioType payload) key) = .ok false := by
    rw [hr, hu, hmt]
    simp only [Bool.or_comm (isAudioType payload)]
    simp [ht]
  obtain ⟨kvs, rfl⟩ := field_present_isObj hm
  unfold postHandler
  rw [classify_of_present w _ hm hs, hk]
  simp only [Except.map, hr2, get_obj, field_obj]

theorem postHandler_passesGate (w : World) (redis : Store) (payload : JSVal)
    (file : Option Buffer) (key : String) (h : PassesGate payload)
    (hk : derivedKey w payload = .ok key) :
    postHandler w redis payload file =
      match cacheStep w redis key (payload.field "event") file with
      | (.error e, redis1, trace1) =>
        { status := none, thrown := some e, redis := redis1, trace := trace1 }
      | (.ok image, redis1, trace1) =>
        if !isVideoType payload then
          { status := none, thrown := none, redis := redis1, trace := trace1 }
        else
          notifyStep w redis1 payload (payload.field "event") key image trace1 :=
  postHandler_of_pass w redis payload file key
    (present_of_truthy (metadata_truthy_of_type payload h.2.2)) h.1 hk h.2.1 h.2.2

theorem postHandler_gate_throws (w : World) (redis : Store) (payload : JSVal)
    (file : Option Buffer) (e : JSError) (h : PassesGate payload)
    (hk : derivedKey w payload = .error e) :
    postHandler w redis payload file =
      { status := none, thrown := some e, redis := redis, trace := [] } :=
  postHandler_key_throws w redis payload file e
    (present_of_truthy (metadata_truthy_of_type payload h.2.2)) h.1 hk

theorem isCacheable_iff (event : JSVal) :
    isCacheable event = true ↔
      (event = str "media.play" ∨ event = str "media.stop" ∨ event = str "media.pause" ∨
        event = str "media.resume") := by
  simp only [isCacheable, Bool.or_eq_true, strictEqStr_iff]
  tauto

theorem cacheStep_write (w : World) (redis : Store) (key : String) (event : JSVal)
    (buffer resized : Buffer) (hc : isCacheable event = true) (hk : redis key = none)
    (hs : w.sharp buffer = some resized) :
    cacheStep w redis key event (some buffer) =
      (.ok (some resized), redis.set key resized SEVEN_DAYS,
        [.redisGetBuffer key, .redisSet key resized SEVEN_DAYS]) := by
  simp [cacheStep, hc, Store.getBuffer, hk, hs]

theorem cacheStep_keep (w : World) (redis : Store) (key : String) (event : JSVal)
    (file : Option Buffer)
    (h : isCacheable event = false ∨ redis key ≠ none ∨ file = none ∨
      ∃ buffer, file = some buffer ∧ w.sharp buffer = none) :
    (cacheStep w redis key event file).2.1 = redis ∧
      (cacheStep w redis key event file).2.2 = [.redisGetBuffer key] := by
  unfold cacheStep
  by_cases hc : isCacheable event = true
  · cases hk : redis key with
    | some entry => simp [hc, Store.getBuffer, hk]
    | none =>
      cases file with
      | none => simp [hc, Store.getBuffer, hk]
      | some buffer =>
        rcases h with h | h | h | ⟨b, hb, hs⟩
        · simp [hc] at h
        · exact absurd hk h
        · simp at h
        · cases hb
          simp [hc, Store.getBuffer, hk, hs]
  · simp [hc]

theorem postHandler_redis (w : World) (redis : Store) (payload : JSVal)
    (file : Option Buffer) (key : String) (h : PassesGate payload)
    (hk : derivedKey w payload = .ok key) :
    (postHandler w redis payload file).redis =
      (cacheStep w redis key (payload.field "event") file).2.1 := by
  rw [postHandler_passesGate w redis payload file key h hk]
  split
  · simp_all
  · split
    · simp_all
    · rw [notifyStep_redis]; simp_all

theorem cacheStep_trace (w : World) (redis : Store) (key : String) (event : JSVal)
    (file : Option Buffer) :
    ∀ e ∈ (cacheStep w redis key event file).2.2, e.isStore = true := by
  unfold cacheStep
  by_cases hc : isCacheable event = true
  · cases hg : redis.getBuffer key with
    | some cached => simp [hc, Event.isStore]
    | none =>
      cases file with
      | none => simp [hc, Event.isStore]
      | some buffer => cases hs : w.sharp buffer <;> simp [hc, hs, Event.isStore]
  · simp [hc, Event.isStore]

/-- What `notifyStep` appends to the trace: no store event, a dispatch only of the
mapped action and colour, and none for an event outside the mapping. -/
theorem notifyStep_trace (w : World) (redis : Store) (payload event : JSVal) (key : String)
    (image : Option Buffer) (trace : List Event) :
    ∃ extra, (notifyStep w redis payload event key image trace).trace = trace ++ extra ∧
      (∀ e ∈ extra, e.isStore = false) ∧
      (∀ imageUrl location action colour,
        Event.notifyDiscord imageUrl location action colour ∈ extra →
          phaseMapping event = some (action, colour)) ∧
      (phaseMapping event = none → ∀ e ∈ extra, e.isNotify = false) := by
  unfold notifyStep
  split
  · exact ⟨[], by simp⟩
  · split
    · exact ⟨_, rfl, by simp [Event.isStore], by simp, by simp [Event.isNotify]⟩
    · split
      · exact ⟨_, rfl, by simp [Event.isStore], by simp, by simp [Event.isNotify]⟩
      · rename_i action colour hmap
        split
        · refine ⟨_, rfl, by simp [Event.isStore], ?_, by simp [hmap]⟩
          intro iu loc a c hmem
          simp at hmem
          rw [hmap, hmem.2.2.1, hmem.2.2.2]
        · refine ⟨_, rfl, by simp [Event.isStore], ?_, by simp [hmap]⟩
          intro iu loc a c hmem
          simp at hmem
          rw [hmap, hmem.2.2.1, hmem.2.2.2]

/-- The address the handler hands to the lookup: `payload.Player.publicAddress`. -/
theorem player_address (payload : JSVal) (hp : (payload.field "Player").present = true) :
    (payload.get "Player" >>= fun player => player.get "publicAddress") =
      .ok ((payload.field "Player").field "publicAddress") := by
  obtain ⟨kvs, rfl⟩ := field_present_isObj hp
  have h1 := get_of_present "publicAddress" hp
  rw [field_obj] at h1
  simp only [get_obj, field_obj, bind, Except.bind, h1]

theorem notifyStep_dispatch (w : World) (redis : Store) (payload event : JSVal) (key : String)
    (image : Option Buffer) (trace : List Event) (location : JSVal) (action colour : String)
    (hp : (payload.field "Player").present = true)
    (hl : w.freegeoip ((payload.field "Player").field "publicAddress") = some location)
    (hmap : phaseMapping event = some (action, colour)) :
    Event.notifyDiscord (imageUrlFor w key image) location action colour ∈
      (notifyStep w redis payload event key image trace).trace := by
  unfold notifyStep
  rw [player_address payload hp]
  simp only [getLocation, hl, hmap]
  split <;> simp

theorem notifyStep_lookup_fails (w : World) (redis : Store) (payload event : JSVal)
    (key : String) (image : Option Buffer) (trace : List Event)
    (hl : w.freegeoip ((payload.field "Player").field "publicAddress") = none) :
    (notifyStep w redis payload event key image trace).status = none ∧
      (notifyStep w redis payload event key image trace).thrown.isSome = true ∧
      ∀ e ∈ (notifyStep w redis payload event key image trace).trace,
        e ∈ trace ∨ e.isNotify = false := by
  unfold notifyStep
  by_cases hp : (payload.field "Player").present = true
  · rw [player_address payload hp]
    simp only [getLocation, hl]
    refine ⟨by simp, by simp, ?_⟩
    intro e he
    rcases List.mem_append.mp he with h | h
    · exact Or.inl h
    · right
      simp at h
      subst h
      rfl
  · split
    · exact ⟨rfl, rfl, fun e he => Or.inl he⟩
    · rename_i ip hip
      exfalso
      cases payload with
      | obj kvs =>
        rw [field_obj] at hp
        cases hP : lookup "Player" kvs <;>
          simp_all [JSVal.get, JSVal.present, bind, Except.bind]
      | _ => simp [JSVal.get, bind, Except.bind] at hip

/-- The trace of a run on a payload that satisfies the validation: store events of the
cache step, then what `notifyStep` appends for a video item. -/
theorem postHandler_trace (w : World) (redis : Store) (payload : JSVal)
    (file : Option Buffer) (h : PassesGate payload) :
    ∃ cache extra, (postHandler w redis payload file).trace = cache ++ extra ∧
      (∀ e ∈ cache, e.isStore = true) ∧
      (isVideoType payload = false → extra = []) ∧
      (∀ e ∈ extra, e.isStore = false) ∧
      (∀ imageUrl location action colour,
        Event.notifyDiscord imageUrl location action colour ∈ extra →
          phaseMapping (payload.field "event") = some (action, colour)) ∧
      (phaseMapping (payload.field "event") = none → ∀ e ∈ extra, e.isNotify = false) := by
  cases hk : derivedKey w payload with
  | error e =>
    rw [postHandler_gate_throws w redis payload file e h hk]
    exact ⟨[], [], by simp⟩
  | ok key =>
    rw [postHandler_passesGate w redis payload file key h hk]
    have hcache := cacheStep_trace w redis key (payload.field "event") file
    rcases hcs : cacheStep w redis key (payload.field "event") file with
      ⟨result, redis1, trace1⟩
    rw [hcs] at hcache
    simp only at hcache
    cases result with
    | error e => exact ⟨trace1, [], by simp, hcache, by simp⟩
    | ok image =>
      by_cases hv : isVideoType payload = true
      · obtain ⟨extra, he, h1, h2, h3⟩ := notifyStep_trace w redis1 payload
          (payload.field "event") key image trace1
        refine ⟨trace1, extra, ?_, hcache, ?_, h1, h2, h3⟩
        · simp only [hv, Bool.not_true, Bool.false_eq_true, if_false]
          exact he
        · intro hf; rw [hv] at hf; cases hf
      · simp only [Bool.not_eq_true] at hv
        exact ⟨trace1, [], by simp [hv], hcache, by simp⟩

theorem cacheStep_ok (w : World) (redis : Store) (key : String) (event : JSVal)
    (file : Option Buffer) (hs : ∀ buffer, file = some buffer → w.sharp buffer ≠ none) :
    ∃ image, (cacheStep w redis key event file).1 = .ok image := by
  unfold cacheStep
  by_cases hc : isCacheable event = true
  · cases hg : redis.getBuffer key with
    | some cached => simp [hc]
    | none =>
      cases file with
      | none => simp [hc]
      | some buffer =>
        cases hsb : w.sharp buffer with
        | none => exact absurd hsb (hs buffer rfl)
        | some resized => simp [hc, hsb]
  · simp [hc]

theorem isNotify_of_isStore {e : Event} (h : e.isStore = true) : e.isNotify = false := by
  cases e <;> simp [Event.isStore, Event.isNotify] at h ⊢

theorem isLookup_of_isStore {e : Event} (h : e.isStore = true) : e.isLookup = false := by
  cases e <;> simp [Event.isStore, Event.isLookup] at h ⊢

theorem notifyStep_unmapped (w : World) (redis : Store) (payload event : JSVal) (key : String)
    (image : Option Buffer) (trace : List Event) (hmap : phaseMapping event = none) :
    (notifyStep w redis payload event key image trace).status = none := by
  unfold notifyStep
  split
  · rfl
  · split
    · rfl
    · simp only [hmap]

theorem not_video_of_audio (payload : JSVal) (h : isAudioType payload = true) :
    isVideoType payload = false := by
  unfold isAudioType at h
  unfold isVideoType
  rw [(strictEqStr_iff _ _).mp h]
  decide

theorem postHandler_status (w : World) (redis : Store) (payload : JSVal)
    (file : Option Buffer) :
    (postHandler w redis payload file).status = none ∨
      (postHandler w redis payload file).status = some 200 ∨
      (postHandler w redis payload file).status = some 400 := by
  unfold postHandler
  split
  · simp
  · split
    · simp
    · simp
    · split
      · simp
      · split
        · simp
        · split
          · simp
          · exact (notifyStep_status w _ payload _ _ _ _).elim Or.inl (fun h => Or.inr (Or.inl h))

theorem add_str_str (plus : JSVal → JSVal → JSVal) (a b : String) :
    (str a).add plus (str b) = .ok (str (a ++ b)) := rfl

theorem string_append_inj {a b c d : String} (hlen : a.length = c.length)
    (h : a ++ b = c ++ d) : a = c ∧ b = d := by
  have hd : a.data ++ b.data = c.data ++ d.data := by
    rw [← String.data_append, ← String.data_append, h]
  have hl : a.data.length = c.data.length := hlen
  obtain ⟨h1, h2⟩ := List.append_inj hd hl
  exact ⟨String.ext h1, String.ext h2⟩

theorem toStr_of_converts {v : JSVal} (h : v.converts = true) : v.toStr = .ok v.text := by
  unfold JSVal.converts at h
  unfold JSVal.text
  cases hv : v.toStr with
  | ok s => rfl
  | error e => rw [hv] at h; cases h

theorem concat_of_converts {a b : JSVal} (ha : a.converts = true) (hb : b.converts = true) :
    a.concat b = .ok (str (a.text ++ b.text)) := by
  simp only [JSVal.concat, toStr_of_converts ha, toStr_of_converts hb, bind, Except.bind, pure,
    Except.pure]

/-! ## The validation gate -/

/-- C1 (defect of the code): for every payload in which `Metadata` is absent (not a
property of the payload, or `null`), whatever its other fields, the handler answers no
400. Line 40 reads `payload.Metadata.librarySectionType` before the presence check of
line 45 runs, so the handler throws a `TypeError`, sends no response and does nothing
else. -/
theorem postHandler_metadata_absent (w : World) (redis : Store) (payload : JSVal)
    (file : Option Buffer) (h : (payload.field "Metadata").present = false) :
    (postHandler w redis payload file).status = none ∧
      (postHandler w redis payload file).thrown = some JSError.typeError ∧
      (postHandler w redis payload file).trace = [] := by
  have hc : classify w payload = .error JSError.typeError := by
    cases payload with
    | obj kvs =>
      rw [field_obj] at h
      cases hM : lookup "Metadata" kvs <;>
        simp_all [classify, JSVal.get, JSVal.present, bind, Except.bind]
    | _ => simp [classify, JSVal.get, bind, Except.bind]
  simp [postHandler, hc]

/-- C1 at the payload `{user: true, event: 'media.play', Server: {uuid: 'u'}}`: no
response, a `TypeError`. -/
theorem postHandler_metadata_absent_witness :
    ((obj [("user", bool true), ("event", str "media.play"),
        ("Server", obj [("uuid", str "u")])]).field "Metadata").present = false ∧
      (postHandler sampleWorld Store.empty
        (obj [("user", bool true), ("event", str "media.play"),
          ("Server", obj [("uuid", str "u")])]) none).status = none ∧
      (postHandler sampleWorld Store.empty
        (obj [("user", bool true), ("event", str "media.play"),
          ("Server", obj [("uuid", str "u")])]) none).thrown = some JSError.typeError :=
  ⟨by decide,
    (postHandler_metadata_absent _ _ _ _ (by decide)).1,
    (postHandler_metadata_absent _ _ _ _ (by decide)).2.1⟩

/-- C2 (defect of the code): for every payload in which `Metadata` and `Server` are
present, the validation of line 45 is reached only when the `+` of line 42 evaluates.
When it does, the handler answers 400 exactly when `user` is falsy or
`Metadata.librarySectionType` is none of `movie`, `show`, `artist`, and a run that
answers 400 has an empty trace, the store it started with and nothing thrown. When
the `+` throws (an operand is an object with an own property `toString`), the handler
throws before the validation: it answers nothing, also for a falsy `user`. -/
theorem postHandler_rejects_iff (w : World) (redis : Store) (payload : JSVal)
    (file : Option Buffer)
    (hm : (payload.field "Metadata").present = true)
    (hs : (payload.field "Server").present = true) :
    (∀ key, derivedKey w payload = .ok key →
        ((postHandler w redis payload file).status = some 400 ↔
          ((payload.field "user").truthy = false ∨
            (sectionType payload ≠ str "movie" ∧ sectionType payload ≠ str "show" ∧
              sectionType payload ≠ str "artist"))) ∧
        ((postHandler w redis payload file).status = some 400 →
          (postHandler w redis payload file).trace = [] ∧
            (postHandler w redis payload file).redis = redis ∧
            (postHandler w redis payload file).thrown = none)) ∧
      (∀ e, derivedKey w payload = .error e →
        (postHandler w redis payload file).status = none ∧
          (postHandler w redis payload file).thrown = some e ∧
          (postHandler w redis payload file).trace = [] ∧
          (postHandler w redis payload file).redis = redis) := by
  refine ⟨fun key hk => ?_, fun e hk => ?_⟩
  swap
  · rw [postHandler_key_throws w redis payload file e hm hs hk]
    exact ⟨rfl, rfl, rfl, rfl⟩
  have htype : (isVideoType payload || isAudioType payload) = true ↔
      ¬ (sectionType payload ≠ str "movie" ∧ sectionType payload ≠ str "show" ∧
        sectionType payload ≠ str "artist") := by
    simp only [isVideoType, isAudioType, Bool.or_eq_true, strictEqStr_iff]
    tauto
  by_cases hpass : (payload.field "user").truthy = true ∧
      (isVideoType payload || isAudioType payload) = true
  · obtain ⟨hu, ht⟩ := hpass
    have hne : (postHandler w redis payload file).status ≠ some 400 := by
      rw [postHandler_of_pass w redis payload file key hm hs hk hu ht]
      split
      · simp
      · split
        · simp
        · rcases notifyStep_status w ‹_› payload (payload.field "event") key ‹_› ‹_› with
            h | h <;> simp [h]
    have hno : ¬ ((payload.field "user").truthy = false ∨
        (sectionType payload ≠ str "movie" ∧ sectionType payload ≠ str "show" ∧
          sectionType payload ≠ str "artist")) := by
      rintro (h | h)
      · simp [hu] at h
      · exact (htype.mp ht) h
    exact ⟨⟨fun h => absurd h hne, fun h => absurd h hno⟩, fun h => absurd h hne⟩
  · have hr : rejects payload
        (Classified.mk (isVideoType payload) (isAudioType payload) key) = .ok true := by
      rw [rejects_of_present payload _ hm]
      by_cases hu : (payload.field "user").truthy = true
      · have ht : (isVideoType payload || isAudioType payload) = false := by
          simpa [hu] using hpass
        have ht2 : (isAudioType payload || isVideoType payload) = false := by
          rw [Bool.or_comm]; exact ht
        simp [ht2]
      · simp [hu]
    have hout : postHandler w redis payload file =
        { status := some 400, thrown := none, redis := redis, trace := [] } := by
      unfold postHandler
      rw [classify_of_present w payload hm hs, hk]
      simp only [Except.map, hr]
    refine ⟨⟨fun _ => ?_, fun _ => by rw [hout]⟩, fun _ => by rw [hout]; exact ⟨rfl, rfl, rfl⟩⟩
    by_cases hu : (payload.field "user").truthy = true
    · right
      by_contra hcon
      exact hpass ⟨hu, htype.mpr hcon⟩
    · left
      simpa using hu

/-- C2 at `{user: false, event: 'media.play', Server: {uuid: {toString: 1}},
Metadata: {librarySectionType: 'movie', ratingKey: '1'}}`: `Metadata` and `Server` are
present and `user` is falsy, yet no 400 is sent: the handler throws a `TypeError`. -/
theorem postHandler_rejects_iff_witness :
    (shadowedPayload.field "Metadata").present = true ∧
      (shadowedPayload.field "Server").present = true ∧
      (shadowedPayload.field "user").truthy = false ∧
      (postHandler sampleWorld Store.empty shadowedPayload none).status = none ∧
      (postHandler sampleWorld Store.empty shadowedPayload none).thrown =
        some JSError.typeError :=
  ⟨by decide, by decide, by decide,
    ((postHandler_rejects_iff sampleWorld Store.empty shadowedPayload none (by decide)
      (by decide)).2 JSError.typeError rfl).1,
    ((postHandler_rejects_iff sampleWorld Store.empty shadowedPayload none (by decide)
      (by decide)).2 JSError.typeError rfl).2.1⟩

/-! ## The cache step -/

/-- C3: for every payload that passes the gate (lines 40 to 42 evaluate, `key` being
`sha1(Server.uuid + Metadata.ratingKey)`, and the validation lets it through), every
prior store and every optional upload, the store after the handler is the store before
it, except when the event is one of `media.play`, `media.stop`, `media.pause`,
`media.resume`, no entry exists under `key` and an image was uploaded: then it is the
prior store with that key set to the normalized upload, expiring after 604800 seconds
(`SEVEN_DAYS`). In every other case (another event, an existing entry, no upload, and
also an upload the image library rejects, of which there is no normalized image) the
store is unchanged; so a second submission without an upload changes nothing and
leaves the first-written entry in place. -/
theorem postHandler_store (w : World) (redis : Store) (payload : JSVal)
    (file : Option Buffer) (key : String) (h : PassesGate payload)
    (hk : derivedKey w payload = .ok key) :
    (∀ buffer resized,
        (payload.field "event" = str "media.play" ∨ payload.field "event" = str "media.stop" ∨
          payload.field "event" = str "media.pause" ∨
          payload.field "event" = str "media.resume") →
        redis key = none → file = some buffer → w.sharp buffer = some resized →
        (postHandler w redis payload file).redis = redis.set key resized 604800) ∧
      (((payload.field "event" ≠ str "media.play" ∧ payload.field "event" ≠ str "media.stop" ∧
            payload.field "event" ≠ str "media.pause" ∧
            payload.field "event" ≠ str "media.resume") ∨
          redis key ≠ none ∨ file = none ∨
          ∃ buffer, file = some buffer ∧ w.sharp buffer = none) →
        (postHandler w redis payload file).redis = redis) ∧
      (postHandler w (postHandler w redis payload file).redis payload none).redis =
        (postHandler w redis payload file).redis ∧
      (∀ buffer resized,
        (payload.field "event" = str "media.play" ∨ payload.field "event" = str "media.stop" ∨
          payload.field "event" = str "media.pause" ∨
          payload.field "event" = str "media.resume") →
        redis key = none → file = some buffer → w.sharp buffer = some resized →
        (postHandler w (postHandler w redis payload file).redis payload none).redis key =
          some ⟨resized, 604800⟩) ∧
      SEVEN_DAYS = 604800 := by
  have hwrite : ∀ buffer resized,
      (payload.field "event" = str "media.play" ∨ payload.field "event" = str "media.stop" ∨
        payload.field "event" = str "media.pause" ∨
        payload.field "event" = str "media.resume") →
      redis key = none → file = some buffer → w.sharp buffer = some resized →
      (postHandler w redis payload file).redis = redis.set key resized 604800 := by
    intro buffer resized hc hkey hf hs
    subst hf
    rw [postHandler_redis w redis payload _ key h hk,
      cacheStep_write w redis _ _ buffer resized ((isCacheable_iff _).mpr hc) hkey hs]
    rfl
  have hsecond : ∀ σ : Store, (postHandler w σ payload none).redis = σ := by
    intro σ
    rw [postHandler_redis w σ payload none key h hk]
    exact (cacheStep_keep w σ _ _ none (Or.inr (Or.inr (Or.inl rfl)))).1
  refine ⟨hwrite, ?_, hsecond _, ?_, rfl⟩
  · intro hcase
    rw [postHandler_redis w redis payload file key h hk]
    refine (cacheStep_keep w redis _ _ file ?_).1
    rcases hcase with hev | hrest
    · left
      cases hc : isCacheable (payload.field "event") with
      | false => rfl
      | true =>
        rcases (isCacheable_iff _).mp hc with h1 | h1 | h1 | h1
        · exact absurd h1 hev.1
        · exact absurd h1 hev.2.1
        · exact absurd h1 hev.2.2.1
        · exact absurd h1 hev.2.2.2
    · exact Or.inr hrest
  · intro buffer resized hc hkey hf hs
    rw [hsecond, hwrite buffer resized hc hkey hf hs]
    simp [Store.set]

/-- C3 on a `media.play` of a movie with the upload `[1, 2, 3]` and an empty store:
the entry is written, and a second submission without an upload leaves it. -/
theorem postHandler_store_witness :
    PassesGate (samplePayload "media.play" "movie" "203.0.113.7") ∧
      derivedKey sampleWorld (samplePayload "media.play" "movie" "203.0.113.7") =
        .ok "sha1:srv42" ∧
      (postHandler sampleWorld Store.empty (samplePayload "media.play" "movie" "203.0.113.7")
        (some [1, 2, 3])).redis =
        Store.empty.set "sha1:srv42" [75, 75, 1, 2, 3] 604800 ∧
      (postHandler sampleWorld
        (postHandler sampleWorld Store.empty (samplePayload "media.play" "movie" "203.0.113.7")
          (some [1, 2, 3])).redis
        (samplePayload "media.play" "movie" "203.0.113.7") none).redis "sha1:srv42" =
        some ⟨[75, 75, 1, 2, 3], 604800⟩ :=
  ⟨⟨by decide, by decide, by decide⟩, rfl,
    (postHandler_store sampleWorld Store.empty
      (samplePayload "media.play" "movie" "203.0.113.7") (some [1, 2, 3]) "sha1:srv42"
      ⟨by decide, by decide, by decide⟩ rfl).1 [1, 2, 3] [75, 75, 1, 2, 3] (Or.inl rfl) rfl
      rfl (by decide),
    (postHandler_store sampleWorld Store.empty
      (samplePayload "media.play" "movie" "203.0.113.7") (some [1, 2, 3]) "sha1:srv42"
      ⟨by decide, by decide, by decide⟩ rfl).2.2.2.1 [1, 2, 3] [75, 75, 1, 2, 3] (Or.inl rfl)
      rfl rfl (by decide)⟩

/-! ## The phase mapping and the dispatch -/

/-- C4: for every video-eligible payload that passes the gate, the action and the
colour the handler selects are a function of `event` alone: every call of
`notifyDiscord` carries `phaseMapping event`, which is
`media.play` to ("started watching", `#36a64f`), `media.stop` to ("stopped watching",
`danger`), `media.resume` to ("resumed playback of", `#36a64f`), `media.pause` to
("paused playback of", `#a67a2d`); for every other event nothing is dispatched; and
the call is made whenever the steps before it complete (the key is computed, the
upload, if any, is accepted by the image library, `Player` can be read and the lookup
resolves). -/
theorem postHandler_phase_mapping (w : World) (redis : Store) (payload : JSVal)
    (file : Option Buffer) (h : PassesGate payload) (hv : isVideoType payload = true) :
    (∀ imageUrl location action colour,
        Event.notifyDiscord imageUrl location action colour ∈
            (postHandler w redis payload file).trace →
          phaseMapping (payload.field "event") = some (action, colour)) ∧
      (payload.field "event" = str "media.play" →
        phaseMapping (payload.field "event") = some ("started watching", "#36a64f")) ∧
      (payload.field "event" = str "media.stop" →
        phaseMapping (payload.field "event") = some ("stopped watching", "danger")) ∧
      (payload.field "event" = str "media.resume" →
        phaseMapping (payload.field "event") = some ("resumed playback of", "#36a64f")) ∧
      (payload.field "event" = str "media.pause" →
        phaseMapping (payload.field "event") = some ("paused playback of", "#a67a2d")) ∧
      (payload.field "event" ≠ str "media.play" → payload.field "event" ≠ str "media.stop" →
        payload.field "event" ≠ str "media.resume" →
        payload.field "event" ≠ str "media.pause" →
        ∀ e ∈ (postHandler w redis payload file).trace, e.isNotify = false) ∧
      (∀ key location action colour, derivedKey w payload = .ok key →
        (∀ buffer, file = some buffer → w.sharp buffer ≠ none) →
        (payload.field "Player").present = true →
        w.freegeoip ((payload.field "Player").field "publicAddress") = some location →
        phaseMapping (payload.field "event") = some (action, colour) →
        ∃ imageUrl, Event.notifyDiscord imageUrl location action colour ∈
          (postHandler w redis payload file).trace) := by
  obtain ⟨cache, extra, htrace, hcache, -, -, hcall, hnone⟩ :=
    postHandler_trace w redis payload file h
  refine ⟨?_, ?_, ?_, ?_, ?_, ?_, ?_⟩
  · intro iu loc a c hmem
    rw [htrace] at hmem
    rcases List.mem_append.mp hmem with hm | hm
    · have := hcache _ hm
      simp [Event.isStore] at this
    · exact hcall iu loc a c hm
  · intro he; rw [he]; rfl
  · intro he; rw [he]; rfl
  · intro he; rw [he]; rfl
  · intro he; rw [he]; rfl
  · intro h1 h2 h3 h4 e hmem
    have hmap : phaseMapping (payload.field "event") = none := by
      simp only [phaseMapping, strictEqStr_iff, h1, h2, h3, h4, if_false]
    rw [htrace] at hmem
    rcases List.mem_append.mp hmem with hm | hm
    · exact isNotify_of_isStore (hcache e hm)
    · exact hnone hmap e hm
  · intro key location action colour hk hs hp hl hmap
    obtain ⟨image, himage⟩ := cacheStep_ok w redis key (payload.field "event") file hs
    refine ⟨imageUrlFor w key image, ?_⟩
    rw [postHandler_passesGate w redis payload file key h hk]
    rcases hcs : cacheStep w redis key (payload.field "event") file with
      ⟨result, redis1, trace1⟩
    rw [hcs] at himage
    simp only at himage
    subst himage
    simp only [hv, Bool.not_true, Bool.false_eq_true, if_false]
    exact notifyStep_dispatch w redis1 payload _ _ image trace1 location action colour hp hl hmap

/-- C4 on a `media.pause` of a movie: `notifyDiscord` is called with the action
"paused playback of" and the colour `#a67a2d`. -/
theorem postHandler_phase_mapping_witness :
    PassesGate (samplePayload "media.pause" "movie" "203.0.113.7") ∧
      isVideoType (samplePayload "media.pause" "movie" "203.0.113.7") = true ∧
      ∃ imageUrl, Event.notifyDiscord imageUrl
        (obj [("city", str "Lyon"), ("country_code", str "FR"), ("country_name", str "France")])
        "paused playback of" "#a67a2d" ∈
          (postHandler sampleWorld Store.empty
            (samplePayload "media.pause" "movie" "203.0.113.7") none).trace :=
  ⟨⟨by decide, by decide, by decide⟩, by decide,
    (postHandler_phase_mapping sampleWorld Store.empty
      (samplePayload "media.pause" "movie" "203.0.113.7") none
      ⟨by decide, by decide, by decide⟩ (by decide)).2.2.2.2.2.2 "sha1:srv42" _ _ _ rfl
      (fun _ hb => by cases hb) (by decide) rfl rfl⟩

/-- C5 (defect of the code): a payload that passes the gate gets no response at all
when the item is not video-eligible (line 71 returns) or the event is outside the phase
mapping (line 93 returns): the status 200 of line 104 is never sent on these paths.
The statuses the handler can send are 200 and 400 only. -/
theorem postHandler_no_response (w : World) (redis : Store) (payload : JSVal)
    (file : Option Buffer) :
    (PassesGate payload →
        (isVideoType payload = false ∨ phaseMapping (payload.field "event") = none) →
        (postHandler w redis payload file).status = none) ∧
      ((postHandler w redis payload file).status = none ∨
        (postHandler w redis payload file).status = some 200 ∨
        (postHandler w redis payload file).status = some 400) := by
  refine ⟨?_, postHandler_status w redis payload file⟩
  intro h hcase
  cases hk : derivedKey w payload with
  | error e => rw [postHandler_gate_throws w redis payload file e h hk]
  | ok key =>
    rw [postHandler_passesGate w redis payload file key h hk]
    rcases cacheStep w redis key (payload.field "event") file with ⟨result, redis1, trace1⟩
    cases result with
    | error e => rfl
    | ok image =>
      by_cases hv : isVideoType payload = true
      · rcases hcase with hc | hc
        · rw [hv] at hc; cases hc
        · simp only [hv, Bool.not_true, Bool.false_eq_true, if_false]
          exact notifyStep_unmapped w redis1 payload _ _ image trace1 hc
      · simp only [Bool.not_eq_true] at hv
        simp [hv]

/-- C5 on a `media.play` of an `artist` item: the gate is passed and no response is
sent. -/
theorem postHandler_no_response_witness :
    PassesGate (samplePayload "media.play" "artist" "203.0.113.7") ∧
      (postHandler sampleWorld Store.empty (samplePayload "media.play" "artist" "203.0.113.7")
        (some [1, 2, 3])).status = none :=
  ⟨⟨by decide, by decide, by decide⟩,
    (postHandler_no_response sampleWorld Store.empty
      (samplePayload "media.play" "artist" "203.0.113.7") (some [1, 2, 3])).1
      ⟨by decide, by decide, by decide⟩ (Or.inl (by decide))⟩

/-- C6 (defect of the code): for every video-eligible payload that passes the gate,
whatever its phase, when the location lookup fails (`getLocation` rejects) the handler
dispatches no notification and sends no response: the rejection of the awaited
`getLocation` of line 75 is not caught, so the handler ends by throwing. -/
theorem postHandler_lookup_failure (w : World) (redis : Store) (payload : JSVal)
    (file : Option Buffer) (h : PassesGate payload) (hv : isVideoType payload = true)
    (hl : w.freegeoip ((payload.field "Player").field "publicAddress") = none) :
    (postHandler w redis payload file).status = none ∧
      (postHandler w redis payload file).thrown.isSome = true ∧
      ∀ e ∈ (postHandler w redis payload file).trace, e.isNotify = false := by
  cases hk : derivedKey w payload with
  | error e =>
    rw [postHandler_gate_throws w redis payload file e h hk]
    exact ⟨rfl, rfl, by simp⟩
  | ok key =>
    rw [postHandler_passesGate w redis payload file key h hk]
    have hcache := cacheStep_trace w redis key (payload.field "event") file
    rcases hcs : cacheStep w redis key (payload.field "event") file with
      ⟨result, redis1, trace1⟩
    rw [hcs] at hcache
    simp only at hcache
    cases result with
    | error e => exact ⟨rfl, rfl, fun e he => isNotify_of_isStore (hcache e he)⟩
    | ok image =>
      simp only [hv, Bool.not_true, Bool.false_eq_true, if_false]
      obtain ⟨h1, h2, h3⟩ := notifyStep_lookup_fails w redis1 payload (payload.field "event")
        key image trace1 hl
      refine ⟨h1, h2, fun e he => ?_⟩
      rcases h3 e he with hm | hm
      · exact isNotify_of_isStore (hcache e hm)
      · exact hm

/-- C6 on a `media.play` of a movie from an address the lookup does not resolve: no
response, no dispatch, and the handler rejects with the error of the lookup. -/
theorem postHandler_lookup_failure_witness :
    PassesGate (samplePayload "media.play" "movie" "198.51.100.1") ∧
      phaseMapping ((samplePayload "media.play" "movie" "198.51.100.1").field "event") =
        some ("started watching", "#36a64f") ∧
      getLocation sampleWorld (str "198.51.100.1") = .error JSError.lookupError ∧
      (postHandler sampleWorld Store.empty (samplePayload "media.play" "movie" "198.51.100.1")
        none).status = none ∧
      (postHandler sampleWorld Store.empty (samplePayload "media.play" "movie" "198.51.100.1")
        none).thrown = some JSError.lookupError ∧
      ∀ e ∈ (postHandler sampleWorld Store.empty
        (samplePayload "media.play" "movie" "198.51.100.1") none).trace, e.isNotify = false :=
  ⟨⟨by decide, by decide, by decide⟩, by decide, rfl,
    (postHandler_lookup_failure sampleWorld Store.empty
      (samplePayload "media.play" "movie" "198.51.100.1") none
      ⟨by decide, by decide, by decide⟩ (by decide) rfl).1,
    by decide,
    (postHandler_lookup_failure sampleWorld Store.empty
      (samplePayload "media.play" "movie" "198.51.100.1") none
      ⟨by decide, by decide, by decide⟩ (by decide) rfl).2.2⟩

/-! ## Audio items -/

/-- C7: for every payload that passes the gate (lines 40 to 42 evaluate, `key` being
`sha1(Server.uuid + Metadata.ratingKey)`, and the validation lets it through) with
section type `artist`, every event, store and upload, the handler dispatches no
notification and makes no location lookup, while the cache step still runs: its trace
and its store are those of the cache step, which starts with the read of `key`, and
with the event `media.play`, an uploaded image and no prior entry, the normalized image
is cached under the derived key, for 604800 seconds. -/
theorem postHandler_audio (w : World) (redis : Store) (payload : JSVal)
    (file : Option Buffer) (key : String) (h : PassesGate payload)
    (hk : derivedKey w payload = .ok key) (ha : isAudioType payload = true) :
    (∀ e ∈ (postHandler w redis payload file).trace, e.isNotify = false ∧ e.isLookup = false) ∧
      (postHandler w redis payload file).trace =
        (cacheStep w redis key (payload.field "event") file).2.2 ∧
      (postHandler w redis payload file).redis =
        (cacheStep w redis key (payload.field "event") file).2.1 ∧
      (postHandler w redis payload file).trace.head? = some (.redisGetBuffer key) ∧
      (∀ buffer resized, payload.field "event" = str "media.play" →
        redis key = none → file = some buffer → w.sharp buffer = some resized →
        (postHandler w redis payload file).redis = redis.set key resized 604800 ∧
          (postHandler w redis payload file).trace =
            [.redisGetBuffer key, .redisSet key resized 604800]) := by
  have hnv := not_video_of_audio payload ha
  have htr : (postHandler w redis payload file).trace =
      (cacheStep w redis key (payload.field "event") file).2.2 := by
    rw [postHandler_passesGate w redis payload file key h hk]
    rcases cacheStep w redis key (payload.field "event") file with ⟨result, redis1, trace1⟩
    cases result with
    | error e => rfl
    | ok image => simp [hnv]
  refine ⟨?_, htr, postHandler_redis w redis payload file key h hk, ?_, ?_⟩
  · intro e he
    rw [htr] at he
    have hst := cacheStep_trace w redis _ _ file e he
    exact ⟨isNotify_of_isStore hst, isLookup_of_isStore hst⟩
  · rw [htr]
    unfold cacheStep
    by_cases hc : isCacheable (payload.field "event") = true
    · cases hg : redis.getBuffer key with
      | some cached => simp [hc]
      | none =>
        cases file with
        | none => simp [hc]
        | some buffer => cases hs : w.sharp buffer <;> simp [hc, hs]
    · simp [hc]
  · intro buffer resized hev hkey hf hs
    subst hf
    have hc : isCacheable (payload.field "event") = true := by rw [hev]; rfl
    rw [htr, postHandler_redis w redis payload _ key h hk,
      cacheStep_write w redis _ _ buffer resized hc hkey hs]
    exact ⟨rfl, rfl⟩

/-- C7 on a `media.play` of an `artist` item with the upload `[9]` and an empty store:
the image is cached and the trace holds the two store operations only. -/
theorem postHandler_audio_witness :
    PassesGate (samplePayload "media.play" "artist" "203.0.113.7") ∧
      derivedKey sampleWorld (samplePayload "media.play" "artist" "203.0.113.7") =
        .ok "sha1:srv42" ∧
      isAudioType (samplePayload "media.play" "artist" "203.0.113.7") = true ∧
      (postHandler sampleWorld Store.empty (samplePayload "media.play" "artist" "203.0.113.7")
        (some [9])).redis = Store.empty.set "sha1:srv42" [75, 75, 9] 604800 ∧
      (postHandler sampleWorld Store.empty (samplePayload "media.play" "artist" "203.0.113.7")
        (some [9])).trace =
        [.redisGetBuffer "sha1:srv42", .redisSet "sha1:srv42" [75, 75, 9] 604800] :=
  ⟨⟨by decide, by decide, by decide⟩, rfl, by decide,
    (postHandler_audio sampleWorld Store.empty
      (samplePayload "media.play" "artist" "203.0.113.7") (some [9]) "sha1:srv42"
      ⟨by decide, by decide, by decide⟩ rfl (by decide)).2.2.2.2 [9] [75, 75, 9] rfl rfl rfl
      (by decide)⟩

/-! ## Titles and subtitles -/

/-- C9, as stated, fails: on `{title: "Arrival", year: 0}` the `year` is present, yet
the title is "Arrival" and not "Arrival (0)", since line 153 tests truthiness and 0 is
falsy. -/
theorem formatTitle_year_zero :
    ((obj [("title", str "Arrival"), ("year", num "0")]).field "year").present = true ∧
      formatTitle (obj [("title", str "Arrival"), ("year", num "0")]) = .ok (str "Arrival") ∧
      formatTitle (obj [("title", str "Arrival"), ("year", num "0")]) ≠
        .ok (str "Arrival (0)") := by
  have h : formatTitle (obj [("title", str "Arrival"), ("year", num "0")]) =
      .ok (str "Arrival") := rfl
  refine ⟨rfl, h, ?_⟩
  rw [h]
  intro hne
  injection hne with hne
  injection hne with hne
  revert hne
  decide

/-- C9, amended: for every metadata object, `formatTitle` returns `grandparentTitle`
when it is truthy; otherwise, when `year` is truthy (present and not 0, empty, false
or null), it returns the text of `title` followed by ` (year)`, for every `title` (a
missing one reads `undefined`), unless `title` or `year` does not convert to a string
(an object with an own `toString`), in which case it throws; and it returns `title`
alone when `year` is falsy. -/
theorem formatTitle_spec (kvs : List (String × JSVal)) :
    (((obj kvs).field "grandparentTitle").truthy = true →
        formatTitle (obj kvs) = .ok ((obj kvs).field "grandparentTitle")) ∧
      (((obj kvs).field "grandparentTitle").truthy = false →
        ((obj kvs).field "year").truthy = true →
        ((obj kvs).field "title").converts = true →
        ((obj kvs).field "year").converts = true →
        formatTitle (obj kvs) =
          .ok (str (((obj kvs).field "title").text ++ " (" ++
            ((obj kvs).field "year").text ++ ")"))) ∧
      (((obj kvs).field "grandparentTitle").truthy = false →
        ((obj kvs).field "year").truthy = true →
        (((obj kvs).field "title").converts = false ∨
          ((obj kvs).field "year").converts = false) →
        ∃ e, formatTitle (obj kvs) = .error e) ∧
      (((obj kvs).field "grandparentTitle").truthy = false →
        ((obj kvs).field "year").truthy = false →
        formatTitle (obj kvs) = .ok ((obj kvs).field "title")) := by
  simp only [formatTitle, get_obj, field_obj, bind, Except.bind, pure, Except.pure]
  refine ⟨fun hgp => ?_, fun hgp hy ht hyc => ?_, fun hgp hy hno => ?_, fun hgp hy => ?_⟩
  · simp only [hgp, if_true]
  · simp only [hgp, hy, if_true, if_false, Bool.false_eq_true, toStr_of_converts hyc]
    rw [concat_of_converts ht (by rfl)]
    simp [JSVal.text, JSVal.toStr, String.append_assoc]
  · simp only [hgp, hy, if_true, if_false, Bool.false_eq_true]
    cases hyt : (lookup "year" kvs).toStr with
    | error e => exact ⟨e, rfl⟩
    | ok yearText =>
      have hyc : (lookup "year" kvs).converts = true := by simp [JSVal.converts, hyt]
      rcases hno with ht | hy2
      · simp only [JSVal.concat, bind, Except.bind]
        cases htt : (lookup "title" kvs).toStr with
        | error e => exact ⟨e, rfl⟩
        | ok s => simp [JSVal.converts, htt] at ht
      · rw [hyc] at hy2; cases hy2
  · simp only [hgp, hy, if_false, Bool.false_eq_true]

/-- C9 on `{title: "Arrival", year: 2016}` with no `grandparentTitle`: the title is
"Arrival (2016)". -/
theorem formatTitle_spec_witness :
    formatTitle (obj [("title", str "Arrival"), ("year", num "2016")]) =
      .ok (str "Arrival (2016)") :=
  ((formatTitle_spec [("title", str "Arrival"), ("year", num "2016")]).2.1 rfl rfl rfl
    rfl).trans rfl

/-- C8, as stated, fails: on `{grandparentTitle: "Show", parentIndex: 0, index: 5,
title: "Ep"}` both `index` and `parentIndex` are present, yet the subtitle is " - Ep"
and not "S0 E5 - Ep", since line 166 tests truthiness and 0 is falsy. -/
theorem formatSubtitle_season_zero :
    ((obj [("grandparentTitle", str "Show"), ("parentIndex", num "0"),
        ("index", num "5"), ("title", str "Ep")]).field "parentIndex").present = true ∧
      ((obj [("grandparentTitle", str "Show"), ("parentIndex", num "0"),
        ("index", num "5"), ("title", str "Ep")]).field "index").present = true ∧
      formatSubtitle (obj [("grandparentTitle", str "Show"), ("parentIndex", num "0"),
        ("index", num "5"), ("title", str "Ep")]) = .ok (str " - Ep") ∧
      formatSubtitle (obj [("grandparentTitle", str "Show"), ("parentIndex", num "0"),
        ("index", num "5"), ("title", str "Ep")]) ≠ .ok (str "S0 E5 - Ep") := by
  have h : formatSubtitle (obj [("grandparentTitle", str "Show"), ("parentIndex", num "0"),
      ("index", num "5"), ("title", str "Ep")]) = .ok (str " - Ep") := rfl
  refine ⟨rfl, rfl, h, ?_⟩
  rw [h]
  intro hne
  injection hne with hne
  injection hne with hne
  revert hne
  decide

/-- C8, amended: for every metadata object whose `parentTitle`, `index`, `parentIndex`,
`originallyAvailableAt` and `title` convert to strings (every value of JSON does,
unless it is, or is an array that holds, an object with an own property `toString`),
`formatSubtitle` returns, under a truthy `grandparentTitle`, a base (the parent title
if `type` is `track`, else `S{parentIndex} E{index}` if `index` and `parentIndex` are
both truthy, so neither 0 nor empty, else `originallyAvailableAt` if truthy, else
empty) suffixed with ` - {title}` if `title` is truthy; under a falsy
`grandparentTitle` the `tagline` of a `movie`; and the empty string otherwise. Nothing
is stated for a track without parent title and for a movie without tagline. -/
theorem formatSubtitle_spec (kvs : List (String × JSVal))
    (hconv : ∀ name ∈ ["parentTitle", "index", "parentIndex", "originallyAvailableAt", "title"],
      ((obj kvs).field name).converts = true)
    (htrack : ((obj kvs).field "grandparentTitle").truthy = true →
      ((obj kvs).field "type").strictEqStr "track" = true →
      ((obj kvs).field "parentTitle").present = true)
    (hmovie : ((obj kvs).field "grandparentTitle").truthy = false →
      ((obj kvs).field "type").strictEqStr "movie" = true →
      ((obj kvs).field "tagline").present = true) :
    formatSubtitle (obj kvs) = .ok (subtitleSpec (obj kvs)) := by
  have hpt := hconv "parentTitle" (by simp)
  have hix := hconv "index" (by simp)
  have hpi := hconv "parentIndex" (by simp)
  have hoa := hconv "originallyAvailableAt" (by simp)
  have hti := hconv "title" (by simp)
  simp only [field_obj] at htrack hmovie hpt hix hpi hoa hti
  have hstr : ∀ s : String, (str s).converts = true := fun _ => rfl
  have htxt : ∀ s : String, (str s).text = s := fun _ => rfl
  have hsuffix : ∀ base : JSVal, base.converts = true →
      ((str " - ").concat (lookup "title" kvs) >>= fun suffix => base.concat suffix) =
        .ok (str (base.text ++ " - " ++ (lookup "title" kvs).text)) := by
    intro base hb
    rw [concat_of_converts (hstr _) hti]
    simp only [bind, Except.bind]
    rw [concat_of_converts hb (hstr _), htxt, htxt, String.append_assoc]
  simp only [formatSubtitle, subtitleSpec, subtitleBase, get_obj, field_obj, bind,
    Except.bind, pure, Except.pure] at hsuffix ⊢
  by_cases hgp : (lookup "grandparentTitle" kvs).truthy = true
  · simp only [hgp, if_true]
    by_cases htr : (lookup "type" kvs).strictEqStr "track" = true
    · simp only [htr, if_true, htrack hgp htr]
      by_cases htt : (lookup "title" kvs).truthy = true
      · simp only [htt, if_true]
        exact hsuffix _ hpt
      · simp only [htt, if_false, Bool.false_eq_true]
    · simp only [htr, if_false, Bool.false_eq_true]
      by_cases hboth : ((lookup "index" kvs).truthy && (lookup "parentIndex" kvs).truthy) = true
      · simp only [hboth, if_true, toStr_of_converts hpi, toStr_of_converts hix]
        by_cases htt : (lookup "title" kvs).truthy = true
        · simp only [htt, if_true]
          exact hsuffix _ (hstr _)
        · simp only [htt, if_false, Bool.false_eq_true]
      · simp only [hboth, if_false, Bool.false_eq_true]
        by_cases hd : (lookup "originallyAvailableAt" kvs).truthy = true
        · simp only [hd, if_true]
          by_cases htt : (lookup "title" kvs).truthy = true
          · simp only [htt, if_true]
            exact hsuffix _ hoa
          · simp only [htt, if_false, Bool.false_eq_true]
        · simp only [hd, if_false, Bool.false_eq_true]
          by_cases htt : (lookup "title" kvs).truthy = true
          · simp only [htt, if_true]
            exact hsuffix _ (hstr _)
          · simp only [htt, if_false, Bool.false_eq_true]
  · simp only [Bool.not_eq_true] at hgp
    by_cases hmv : (lookup "type" kvs).strictEqStr "movie" = true
    · simp only [hgp, hmv, if_true, if_false, Bool.false_eq_true, hmovie hgp hmv]
    · simp only [hgp, hmv, if_false, Bool.false_eq_true]

/-- C8 on `{grandparentTitle: "Show", parentIndex: 2, index: 5, title: "Ep"}`: the
subtitle is "S2 E5 - Ep". -/
theorem formatSubtitle_spec_witness :
    formatSubtitle (obj [("grandparentTitle", str "Show"), ("parentIndex", num "2"),
        ("index", num "5"), ("title", str "Ep")]) = .ok (str "S2 E5 - Ep") :=
  (formatSubtitle_spec [("grandparentTitle", str "Show"), ("parentIndex", num "2"),
    ("index", num "5"), ("title", str "Ep")] (by decide) (fun _ h => by cases h)
    (fun h _ => by cases h)).trans rfl

/-! ## The cache key -/

/-- C10, as stated, fails: the pairs ("a", "bc") and ("ab", "c") are distinct and have
the same digest input "abc", hence the same key whatever the digest. -/
theorem digest_input_collision :
    (("a", "bc") : String × String) ≠ ("ab", "c") ∧
      (str "a").add sampleWorld.plus (str "bc") = (str "ab").add sampleWorld.plus (str "c") ∧
      derivedKey sampleWorld (obj [("Server", obj [("uuid", str "a")]),
          ("Metadata", obj [("ratingKey", str "bc")])]) =
        derivedKey sampleWorld (obj [("Server", obj [("uuid", str "ab")]),
          ("Metadata", obj [("ratingKey", str "c")])]) :=
  ⟨by decide, rfl, rfl⟩

/-- C10, amended: the cache key is a function of the pair (`Server.uuid`,
`Metadata.ratingKey`) alone, `sha1(Server.uuid + Metadata.ratingKey)`, so the same pair
always yields the same key; and two distinct pairs of strings yield distinct digest
inputs whenever their server ids have the same length, in particular for the same
server id with different item ids (and for the same item id with different server
ids). Pairs whose server ids differ in length can share the digest input. -/
theorem derivedKey_spec :
    (∀ (w : World) (p q : JSVal),
        (p.field "Server").field "uuid" = (q.field "Server").field "uuid" →
        (p.field "Metadata").field "ratingKey" = (q.field "Metadata").field "ratingKey" →
        derivedKey w p = derivedKey w q) ∧
      (∀ (w : World) (p : JSVal) (a b : String),
        (p.field "Server").field "uuid" = str a →
        (p.field "Metadata").field "ratingKey" = str b →
        derivedKey w p = .ok (w.sha1 (str (a ++ b)))) ∧
      (∀ (plus : JSVal → JSVal → JSVal) (a b c d : String), a.length = c.length →
        (a, b) ≠ (c, d) → (str a).add plus (str b) ≠ (str c).add plus (str d)) ∧
      (∀ (plus : JSVal → JSVal → JSVal) (a b d : String), b ≠ d →
        (str a).add plus (str b) ≠ (str a).add plus (str d)) ∧
      (∀ (plus : JSVal → JSVal → JSVal) (a b c : String), a ≠ c →
        (str a).add plus (str b) ≠ (str c).add plus (str b)) := by
  have hstr : ∀ (plus : JSVal → JSVal → JSVal) (a b c d : String),
      (str a).add plus (str b) = (str c).add plus (str d) → a ++ b = c ++ d := by
    intro plus a b c d heq
    rw [add_str_str, add_str_str] at heq
    injection heq with heq
    exact JSVal.str.inj heq
  have hinj : ∀ (plus : JSVal → JSVal → JSVal) (a b c d : String), a.length = c.length →
      (a, b) ≠ (c, d) → (str a).add plus (str b) ≠ (str c).add plus (str d) := by
    intro plus a b c d hlen hne heq
    obtain ⟨h1, h2⟩ := string_append_inj hlen (hstr plus a b c d heq)
    exact hne (by rw [h1, h2])
  refine ⟨?_, ?_, hinj, ?_, ?_⟩
  · intro w p q h1 h2
    simp only [derivedKey, h1, h2]
  · intro w p a b h1 h2
    simp only [derivedKey, h1, h2, add_str_str]
    rfl
  · intro plus a b d hne
    exact hinj plus a b a d rfl (fun h => hne (Prod.mk.inj h).2)
  · intro plus a b c hne heq
    have hd : a.data ++ b.data = c.data ++ b.data := by
      rw [← String.data_append, ← String.data_append, hstr plus a b c b heq]
    exact hne (String.ext (List.append_cancel_right hd))

/-- C10 on the server id "srv": the item ids "42" and "43" give distinct digest
inputs, and one payload gives one key. -/
theorem derivedKey_spec_witness :
    (str "srv").add sampleWorld.plus (str "42") ≠ (str "srv").add sampleWorld.plus (str "43") ∧
      derivedKey sampleWorld (samplePayload "media.play" "movie" "203.0.113.7") =
        .ok (sampleWorld.sha1 (str ("srv" ++ "42"))) :=
  ⟨derivedKey_spec.2.2.2.1 sampleWorld.plus "srv" "42" "43" (by decide),
    derivedKey_spec.2.1 sampleWorld _ "srv" "42" rfl rfl⟩

end WebhooksDiscord
